import Mathlib

/-!
Verification of the polling-bot repository (Mattermost chat bot with a poll
service and a Tarantool-backed store) against its natural-language
specification.  Go code is shallowly embedded: pure Go functions become Lean
functions, the stateful service/storage layer becomes explicit state passing
over association lists (Go maps), Go byte lengths become UTF-8 byte sizes,
and fallible operations return `Except`/`Option`.
-/

namespace PollingBot

/-! ## Command-argument tokenizer

Embeds `parseCommandArgs` (identical code in
`internal/handler/command_handler.go` and `internal/bot/client.go`).
The Go loop is `for i, r := range input` where `i` is the byte offset of the
rune `r` and `len(input)` is the UTF-8 byte length; the scanner keeps the
loop's exact state (args, buffer, inQuotes, quoteChar, escape), including the
`continue` in the escape branch that skips the end-of-input flush check. -/

/-- The backslash character (Go literal `'\\'`). -/
def backslashChar : Char := Char.ofNat 92

/-- The double-quote character (Go literal `'"'`). -/
def dquoteChar : Char := Char.ofNat 34

/-- The single-quote character (Go literal `'\''`). -/
def squoteChar : Char := Char.ofNat 39

/-- Go `unicode.IsSpace`: the Unicode `White_Space` property, written out as
the complete list of code points Go recognizes. -/
def goIsSpace (c : Char) : Bool :=
  let n := c.toNat
  (0x09 ≤ n && n ≤ 0x0D) || n == 0x20 || n == 0x85 || n == 0xA0 ||
  n == 0x1680 || (0x2000 ≤ n && n ≤ 0x200A) || n == 0x2028 || n == 0x2029 ||
  n == 0x202F || n == 0x205F || n == 0x3000

/-- The mutable state of the Go scanner: emitted `args`, the current token
buffer `buf` (a `strings.Builder`), quote state and pending escape. -/
structure ScanState where
  args : List String
  buf : List Char
  inQuotes : Bool
  quoteChar : Char
  escape : Bool

/-- Initial scanner state (`var args []string; var buf strings.Builder;
inQuotes := false; var quoteChar rune; escape := false`). -/
def initScanState : ScanState :=
  { args := [], buf := [], inQuotes := false, quoteChar := Char.ofNat 0, escape := false }

/-- One pass of the Go `for i, r := range input` loop body, iterated over the
remaining runes.  `total` is `len(input)` in bytes and `i` the byte offset of
the current rune.  The escape branch `continue`s, skipping the final
`if i == len(input)-1` flush check, exactly as in the source. -/
def parseLoop (total : Nat) : List Char → Nat → ScanState → List String
  | [], _, st => st.args
  | c :: rest, i, st =>
    if st.escape then
      parseLoop total rest (i + c.utf8Size) { st with buf := st.buf ++ [c], escape := false }
    else
      let st1 :=
        if c == backslashChar then
          if st.inQuotes then { st with escape := true }
          else { st with buf := st.buf ++ [c] }
        else if c == dquoteChar || c == squoteChar then
          if st.inQuotes then
            if c == st.quoteChar then
              { st with inQuotes := false, args := st.args ++ [String.mk st.buf], buf := [] }
            else { st with buf := st.buf ++ [c] }
          else { st with inQuotes := true, quoteChar := c }
        else if goIsSpace c then
          if st.inQuotes then { st with buf := st.buf ++ [c] }
          else if st.buf.length > 0 then
            { st with args := st.args ++ [String.mk st.buf], buf := [] }
          else st
        else { st with buf := st.buf ++ [c] }
      let st2 :=
        if i == total - 1 && st1.buf.length > 0 then
          { st1 with args := st1.args ++ [String.mk st1.buf] }
        else st1
      parseLoop total rest (i + c.utf8Size) st2

/-- `parseCommandArgs` from the source: tokenizes a raw command line,
honoring single/double quotes and backslash escapes inside quotes. -/
def parseCommandArgs (input : String) : List String :=
  parseLoop input.utf8ByteSize input.toList 0 initScanState

/-- Go `strings.ToLower`, modelled rune by rune (the subcommand names it is
compared against are ASCII). -/
def goToLower (s : String) : String := String.mk (s.toList.map Char.toLower)

/-- `PollCommandHandler.ParseCommand` from
`internal/handler/command_handler.go`: recognizes the `!poll` prefix, falls
back to `help` when no subcommand follows, otherwise lowercases the second
token and passes the rest as arguments. -/
def parseCommand (input : String) : String × List String × Bool :=
  match parseCommandArgs input with
  | [] => ("", [], false)
  | p0 :: rest =>
    if p0 != "!poll" then ("", [], false)
    else
      match rest with
      | [] => ("help", [], true)
      | p1 :: rest2 => (goToLower p1, rest2, true)

example : parseCommandArgs "!poll create hi" = ["!poll", "create", "hi"] := by decide
example : parseCommandArgs "й" = [] := by decide
example : parseCommand "!poll" = ("help", [], true) := by decide

/-! ## Association-list model of Go maps

`map[string]V` becomes an association list with unique keys; assignment
replaces the binding of an existing key or appends a fresh one, deletion
removes the binding. -/

/-- Go map read `m[k]` (with its `ok` flag as `Option`). -/
def assocGet (m : List (String × α)) (k : String) : Option α :=
  match m with
  | [] => none
  | (k2, v) :: rest => if k2 == k then some v else assocGet rest k

/-- Go map assignment `m[k] = v`. -/
def assocSet (m : List (String × α)) (k : String) (v : α) : List (String × α) :=
  match m with
  | [] => [(k, v)]
  | (k2, v2) :: rest => if k2 == k then (k, v) :: rest else (k2, v2) :: assocSet rest k v

/-- Go map deletion `delete(m, k)`. -/
def assocErase (m : List (String × α)) (k : String) : List (String × α) :=
  match m with
  | [] => []
  | (k2, v2) :: rest => if k2 == k then rest else (k2, v2) :: assocErase rest k

/-! ## In-memory poll storage

`InMemoryPollStorage` (`internal/service/poll_service.go`): a `map[string]Poll`
guarded by a reader/writer lock, so each operation is atomic over the map.
The operations are generic in the stored record type. -/

namespace InMemory

/-- `InMemoryPollStorage.SavePoll`: upsert keyed by the poll id; never fails. -/
def savePoll (s : List (String × π)) (id : String) (p : π) : List (String × π) :=
  assocSet s id p

/-- `InMemoryPollStorage.GetPoll`: lookup; `none` models the
"poll not found" error. -/
def getPoll (s : List (String × π)) (id : String) : Option π :=
  assocGet s id

/-- `InMemoryPollStorage.DeletePoll`: removes the record; never fails. -/
def deletePoll (s : List (String × π)) (id : String) : List (String × π) :=
  assocErase s id

end InMemory

/-! ## Poll service (generation present in `internal/service/poll_service.go`) -/

/-- The service error values, one constructor per distinct Go error; the
comments give the Go error text. -/
inductive PollError where
  | noOptions                       -- "должна быть хотя бы одна опция"
  | notFound                        -- "опрос не найден"
  | pollClosed                      -- "опрос завершен"
  | invalidChoice (choice : String) -- "вариант '%s' не существует"
  | notCreatorEnd                   -- "только создатель может завершить опрос"
  | notCreatorDelete                -- "только создатель может удалить опрос"
  | questionTooLong                 -- "вопрос слишком длинный"
  | optionTooLong                   -- "вариант ответа слишком длинный"
  | duplicateOptions                -- "все опции в голосовании должны быть уникальными"
  | invalidPollId                   -- "неверный формат ID опроса"
  | duplicateVote                   -- "вы уже голосовали в этом опросе"
  | storage (msg : String)          -- wrapped storage errors
deriving DecidableEq, Repr

/-- The structured content of the success messages the service formats with
`fmt.Sprintf` (id, question, option list, counts...). -/
inductive SvcMsg where
  | created (id question : String) (options : List String)
  | voted (pollID choice : String)
  | results (pollID question : String) (counts : List (String × Nat))
  | ended (pollID : String)
  | deleted (pollID : String)
deriving DecidableEq, Repr

/-- Decidable equality on `Except` results, so concrete service calls can be
checked by evaluation. -/
instance instDecidableEqExcept [DecidableEq ε] [DecidableEq α] :
    DecidableEq (Except ε α) := fun x y =>
  match x, y with
  | .error a, .error b => decidable_of_iff (a = b) (by simp)
  | .error _, .ok _ => isFalse (fun h => Except.noConfusion h)
  | .ok _, .error _ => isFalse (fun h => Except.noConfusion h)
  | .ok a, .ok b => decidable_of_iff (a = b) (by simp)

namespace Service

/-- `service.Poll` (`internal/service/poll_service.go`): note this record
generation has no voters field.  `CreatedAt` (a `time.Time`) is modelled as an
opaque number. -/
structure Poll where
  id : String
  question : String
  options : List (String × Nat)
  creator : String
  createdAt : Nat
  closed : Bool
deriving DecidableEq, Repr

/-- The in-memory store state: the `map[string]Poll`. -/
abbrev Store := List (String × Poll)

/-- `PollServiceImpl.CreatePoll` composed with the in-memory backend.
`newId` stands for the generated `s.idGenerator()` value and `now` for
`time.Now()`.  The in-memory `SavePoll` never fails, so the wrapped
storage-error branch of the source is unreachable here. -/
def createPoll (st : Store) (newId : String) (now : Nat) (userID question : String)
    (options : List String) : (Except PollError SvcMsg) × Store :=
  if options.length < 1 then (.error .noOptions, st)
  else
    let poll : Poll :=
      { id := newId, question := question,
        options := options.foldl (fun m o => assocSet m o 0) [],
        creator := userID, createdAt := now, closed := false }
    (.ok (.created poll.id poll.question options), InMemory.savePoll st poll.id poll)

/-- `PollServiceImpl.AddVote` composed with the in-memory backend: fetch,
reject closed polls and unknown choices, increment the chosen counter, save. -/
def addVote (st : Store) (userID pollID choice : String) :
    (Except PollError SvcMsg) × Store :=
  match InMemory.getPoll st pollID with
  | none => (.error .notFound, st)
  | some poll =>
    if poll.closed then (.error .pollClosed, st)
    else
      match assocGet poll.options choice with
      | none => (.error (.invalidChoice choice), st)
      | some n =>
        let poll2 := { poll with options := assocSet poll.options choice (n + 1) }
        (.ok (.voted pollID choice), InMemory.savePoll st poll2.id poll2)

/-- `PollServiceImpl.GetResults` composed with the in-memory backend. -/
def getResults (st : Store) (userID pollID : String) :
    (Except PollError SvcMsg) × Store :=
  match InMemory.getPoll st pollID with
  | none => (.error .notFound, st)
  | some poll => (.ok (.results pollID poll.question poll.options), st)

/-- `PollServiceImpl.EndPoll` composed with the in-memory backend: creator-only,
sets `Closed` and saves. -/
def endPoll (st : Store) (userID pollID : String) :
    (Except PollError SvcMsg) × Store :=
  match InMemory.getPoll st pollID with
  | none => (.error .notFound, st)
  | some poll =>
    if poll.creator != userID then (.error .notCreatorEnd, st)
    else
      let poll2 := { poll with closed := true }
      (.ok (.ended pollID), InMemory.savePoll st poll2.id poll2)

/-- `PollServiceImpl.DeletePoll` composed with the in-memory backend:
creator-only, removes the record. -/
def deletePoll (st : Store) (userID pollID : String) :
    (Except PollError SvcMsg) × Store :=
  match InMemory.getPoll st pollID with
  | none => (.error .notFound, st)
  | some poll =>
    if poll.creator != userID then (.error .notCreatorDelete, st)
    else (.ok (.deleted pollID), InMemory.deletePoll st pollID)

/-- One service request, used to quantify over all five operations at once. -/
inductive Op where
  | create (newId : String) (now : Nat) (question : String) (options : List String)
  | vote (pollID choice : String)
  | results (pollID : String)
  | close (pollID : String)
  | remove (pollID : String)

/-- Dispatch a request to the corresponding service operation. -/
def runOp (st : Store) (userID : String) : Op → (Except PollError SvcMsg) × Store
  | .create newId now q opts => createPoll st newId now userID q opts
  | .vote pid c => addVote st userID pid c
  | .results pid => getResults st userID pid
  | .close pid => endPoll st userID pid
  | .remove pid => deletePoll st userID pid

end Service

/-! ## Command dispatcher (`internal/handler/command_handler.go`) -/

/-- The dispatcher's response messages: the fixed texts (comments give the Go
strings) or a message produced by the poll service. -/
inductive HandlerMsg where
  | helpText               -- the multi-line usage text of GetHelpText
  | insufficientCreateArgs -- "Недостаточно аргументов. Нужен вопрос и хотя бы одна опция"
  | voteFormatHint         -- "Формат: !poll vote ..."
  | resultsFormatHint      -- "Формат: !poll results ..."
  | endFormatHint          -- "Формат: !poll end ..."
  | deleteFormatHint       -- "Формат: !poll delete ..."
  | unknownCommand         -- "Неизвестная команда. Введите !poll help для справки"
  | fromService (m : SvcMsg)
  | empty                  -- ""
deriving DecidableEq, Repr

/-- The `service.PollService` interface as seen by the dispatcher: each
operation takes the caller and its arguments and returns `(message, error)`. -/
structure PollServiceSig where
  createPoll : String → String → List String → HandlerMsg × Option PollError
  addVote : String → String → String → HandlerMsg × Option PollError
  getResults : String → String → HandlerMsg × Option PollError
  endPoll : String → String → HandlerMsg × Option PollError
  deletePoll : String → String → HandlerMsg × Option PollError

/-- `PollCommandHandler.HandleCommand`: arity checks per subcommand with fixed
hint messages and `nil` error, delegation to the service otherwise, and a fixed
unknown-command message as the default branch. -/
def handleCommand (svc : PollServiceSig) (cmd : String) (args : List String)
    (userID : String) : HandlerMsg × Option PollError :=
  if cmd == "help" then (.helpText, none)
  else if cmd == "create" then
    match args with
    | q :: o1 :: rest => svc.createPoll userID q (o1 :: rest)
    | _ => (.insufficientCreateArgs, none)
  else if cmd == "vote" then
    match args with
    | [pid, choice] => svc.addVote userID pid choice
    | _ => (.voteFormatHint, none)
  else if cmd == "results" then
    match args with
    | [pid] => svc.getResults userID pid
    | _ => (.resultsFormatHint, none)
  else if cmd == "end" then
    match args with
    | [pid] => svc.endPoll userID pid
    | _ => (.endFormatHint, none)
  else if cmd == "delete" then
    match args with
    | [pid] => svc.deletePoll userID pid
    | _ => (.deleteFormatHint, none)
  else (.unknownCommand, none)

/-- A poll service stub used to instantiate dispatcher theorems. -/
def constSvc : PollServiceSig :=
  { createPoll := fun _ _ _ => (.empty, none)
    addVote := fun _ _ _ => (.empty, none)
    getResults := fun _ _ => (.empty, none)
    endPoll := fun _ _ => (.empty, none)
    deletePoll := fun _ _ => (.empty, none) }

namespace Models

/-- `models.Poll` (`internal/models`): the current-generation poll record with
the voters set (`map[string]bool`). -/
structure Poll where
  id : String
  creator : String
  question : String
  voters : List (String × Bool)
  options : List (String × Nat)
  closed : Bool
deriving DecidableEq, Repr

end Models

namespace ServiceM

/-- The in-memory store state over current-generation records. -/
abbrev Store := List (String × Models.Poll)

/-- Modelled from the spec: the current-generation `PollServiceImpl.CreatePoll`
over `models.Poll` is not among the provided sources — only its tests
(`poll_service_test.go`) and its wiring (`cmd/bot/main.go`) are.  Per spec
§4.3 it fails with a validation error if `options` is empty, if `question`
exceeds the max question length (255 bytes, per the repository's tests), if
any option exceeds the max option length (100 bytes), or if `options`
contains a duplicate label (case-sensitive exact match); on success it builds
a poll with all option counts 0, empty voter set, `closed = false`,
`creator = caller`, and persists it via the store's `SavePoll`. -/
def createPoll (st : Store) (newId userID question : String) (options : List String) :
    (Except PollError SvcMsg) × Store :=
  if options.length < 1 then (.error .noOptions, st)
  else if question.utf8ByteSize > 255 then (.error .questionTooLong, st)
  else if ∃ o ∈ options, o.utf8ByteSize > 100 then (.error .optionTooLong, st)
  else if ¬ options.Nodup then (.error .duplicateOptions, st)
  else
    let poll : Models.Poll :=
      { id := newId, creator := userID, question := question,
        voters := [], options := options.map (fun o => (o, 0)), closed := false }
    (.ok (.created poll.id poll.question options), InMemory.savePoll st poll.id poll)

end ServiceM

/-! ## Tarantool repository (`internal/repository`, `src/unnamed/part_002`) -/

namespace Repository

/-- A value stored in a Tarantool tuple field, as marshalled by the Go client
for the poll space. -/
inductive TValue where
  | vstr (s : String)
  | vmapB (m : List (String × Bool))
  | vmapN (m : List (String × Nat))
  | vbool (b : Bool)
deriving DecidableEq, Repr

/-- The positional tuple `TarantoolPollRepo.SavePoll` replaces into the space:
the source's comments label the fields 1..6 as id, creator, question, voters,
options, is_closed, matching the space format in the init script. -/
def savePollTuple (p : Models.Poll) : List TValue :=
  [.vstr p.id, .vstr p.creator, .vstr p.question,
   .vmapB p.voters, .vmapN p.options, .vbool p.closed]

/-- A Tarantool update operation `{op, fieldNo, value}` exactly as the Go code
passes it to `conn.Update`. -/
structure UpdateOp where
  op : String
  fieldNo : Nat
  value : TValue
deriving DecidableEq, Repr

/-- The operations `TarantoolPollRepo.AddVoteAtomic` sends:
`{"=", 3, poll.Voters}` and `{"=", 4, poll.Options}`. -/
def addVoteAtomicOps (p : Models.Poll) : List UpdateOp :=
  [⟨"=", 3, .vmapB p.voters⟩, ⟨"=", 4, .vmapN p.options⟩]

/-- The operation `TarantoolPollRepo.ClosePoll` sends: `{"=", 6, true}`. -/
def closePollOps : List UpdateOp :=
  [⟨"=", 6, .vbool true⟩]

/-- Tarantool assignment (`"="`) semantics on a resolved 0-based index:
overwrite an existing field, or append when the index is one past the end. -/
def applyAssign (t : List TValue) (idx : Nat) (v : TValue) : List TValue :=
  if idx < t.length then t.set idx v
  else if idx = t.length then t ++ [v]
  else t

/-- Apply a list of `"="` update operations, interpreting each `fieldNo` under
the numbering `base` (0 for the binary protocol's 0-based numbering used by
the Go connector, 1 for Lua-style 1-based numbering). -/
def applyOps (base : Nat) (t : List TValue) (ops : List UpdateOp) : List TValue :=
  ops.foldl (fun t2 o => applyAssign t2 (o.fieldNo - base) o.value) t

/-- Does the list start with the pattern? (helper for the substring test) -/
def charsStartWith : List Char → List Char → Bool
  | _, [] => true
  | [], _ :: _ => false
  | c :: cs, p :: ps => c == p && charsStartWith cs ps

/-- Does the pattern occur contiguously in the list? -/
def charsContain (pat : List Char) : List Char → Bool
  | [] => charsStartWith [] pat
  | c :: rest => charsStartWith (c :: rest) pat || charsContain pat rest

/-- Go `strings.Contains s pat`. -/
def goContains (s pat : String) : Bool := charsContain pat.toList s.toList

/-- The retry trigger of `AddVoteAtomic`:
`strings.Contains(err.Error(), "transaction conflict")`. -/
def isConflict (msg : String) : Bool := goContains msg "transaction conflict"

/-- The store's reply to one `conn.Update` call. -/
inductive UpdateResult where
  | ok
  | fail (msg : String)
deriving DecidableEq, Repr

/-- The result of `AddVoteAtomic`; the comments give the Go errors. -/
inductive VoteWrite where
  | ok
  | ctxErr (msg : String)    -- `ctx.Err()` returned at entry
  | saveError (msg : String) -- "ошибка сохранения голоса: %w" (no retry)
  | exhausted                -- "не удалось сохранить голос после 5 попыток"
deriving DecidableEq, Repr

/-- The `for i := 0; i < 5; i++` retry loop of `AddVoteAtomic`: `update i` is
the store's reply to the i-th attempt; the returned list records the
`time.Sleep(time.Duration(i+1) * 20 * time.Millisecond)` pauses (in ms). -/
def addVoteLoop (update : Nat → UpdateResult) (i : Nat) : Nat → VoteWrite × List Nat
  | 0 => (.exhausted, [])
  | fuel + 1 =>
    match update i with
    | .ok => (.ok, [])
    | .fail msg =>
      if isConflict msg then
        let r := addVoteLoop update (i + 1) fuel
        (r.1, ((i + 1) * 20) :: r.2)
      else (.saveError msg, [])

/-- `TarantoolPollRepo.AddVoteAtomic`: context check at entry, then at most 5
conditional-update attempts with a linearly growing sleep after each
write-write conflict. -/
def addVoteAtomic (ctxErr : Option String) (update : Nat → UpdateResult) :
    VoteWrite × List Nat :=
  match ctxErr with
  | some e => (.ctxErr e, [])
  | none => addVoteLoop update 0 5

end Repository

example :
    Repository.addVoteAtomic none (fun _ => .fail "transaction conflict") =
      (.exhausted, [20, 40, 60, 80, 100]) := by decide
example :
    Repository.addVoteAtomic none
        (fun i => if i < 2 then .fail "a transaction conflict b" else .fail "db down") =
      (.saveError "db down", [20, 40]) := by decide
example :
    Repository.addVoteAtomic none (fun i => if i < 1 then .fail "transaction conflict" else .ok) =
      (.ok, [20]) := by decide
example : Repository.addVoteAtomic (some "context canceled") (fun _ => .ok) =
    (.ctxErr "context canceled", []) := by decide

/-- A concrete open poll of the generation in `poll_service.go`: one option
"A" with count 0, creator `c1`. -/
def pollP1 : Service.Poll :=
  { id := "p1", question := "q", options := [("A", 0)], creator := "c1",
    createdAt := 0, closed := false }

/-- A store holding just `pollP1`. -/
def storeP1 : Service.Store := [("p1", pollP1)]

/-- A question one byte over the 255-byte limit asserted by the repository's
tests ("вопрос слишком длинный" is expected for 256 bytes). -/
def longQuestion : String := String.mk (List.replicate 256 'a')

/-- An option label one byte over the 100-byte limit asserted by the
repository's tests. -/
def longOption : String := String.mk (List.replicate 101 'a')

/-- A concrete open current-generation poll. -/
def pollP1M : Models.Poll :=
  { id := "p1", creator := "u1", question := "q", voters := [],
    options := [("A", 0)], closed := false }

/-- `pollP1M` after `u1` voted for "A" (the in-memory mutation `AddVote`
hands to `AddVoteAtomic`). -/
def pollP1Mvoted : Models.Poll :=
  { pollP1M with voters := [("u1", true)], options := [("A", 1)] }

/-! ## Helper lemmas -/

/-- Reading back the key just written into a Go map. -/
theorem assocGet_assocSet_self (m : List (String × α)) (k : String) (v : α) :
    assocGet (assocSet m k v) k = some v := by
  induction m with
  | nil => simp [assocSet, assocGet]
  | cons kv rest ih =>
    obtain ⟨k2, v2⟩ := kv
    by_cases h : k2 = k
    · subst h
      simp [assocSet, assocGet]
    · have hb : (k2 == k) = false := by simp [h]
      simp [assocSet, assocGet, hb, ih]

/-- One unfolding of the `AddVoteAtomic` retry loop. -/
theorem addVoteLoop_succ (update : Nat → Repository.UpdateResult) (i fuel : Nat) :
    Repository.addVoteLoop update i (fuel + 1) =
      match update i with
      | .ok => (.ok, [])
      | .fail msg =>
        if Repository.isConflict msg then
          ((Repository.addVoteLoop update (i + 1) fuel).1,
           ((i + 1) * 20) :: (Repository.addVoteLoop update (i + 1) fuel).2)
        else (.saveError msg, []) := rfl

/-- Unrolling the `AddVoteAtomic` retry loop across a prefix of `k` attempts
that all end in a write-write conflict: the loop continues at attempt `k` with
the sleeps `20ms, 40ms, ...` recorded for the conflicted attempts. -/
theorem addVoteLoop_conflict_prefix (update : Nat → Repository.UpdateResult) (k : Nat) :
    ∀ i fuel, k ≤ fuel →
    (∀ j, j < k → ∃ m, update (i + j) = .fail m ∧ Repository.isConflict m = true) →
    Repository.addVoteLoop update i fuel =
      ((Repository.addVoteLoop update (i + k) (fuel - k)).1,
       ((List.range k).map (fun j => (i + j + 1) * 20)) ++
         (Repository.addVoteLoop update (i + k) (fuel - k)).2) := by
  induction k with
  | zero =>
    intro i fuel _ _
    simp
  | succ k ih =>
    intro i fuel hk h
    obtain ⟨fuel2, rfl⟩ : ∃ f, fuel = f + 1 := ⟨fuel - 1, by omega⟩
    obtain ⟨m, hm, hconf⟩ := h 0 (Nat.succ_pos k)
    have hm2 : update i = .fail m := by simpa using hm
    have step : Repository.addVoteLoop update i (fuel2 + 1) =
        ((Repository.addVoteLoop update (i + 1) fuel2).1,
         ((i + 1) * 20) :: (Repository.addVoteLoop update (i + 1) fuel2).2) := by
      rw [addVoteLoop_succ, hm2]
      simp [hconf]
    have h2 : ∀ j, j < k →
        ∃ m2, update (i + 1 + j) = .fail m2 ∧ Repository.isConflict m2 = true := by
      intro j hj
      have := h (j + 1) (by omega)
      have harr : i + (j + 1) = i + 1 + j := by omega
      rwa [harr] at this
    have hrec := ih (i + 1) fuel2 (by omega) h2
    rw [step, hrec]
    have harith1 : i + 1 + k = i + (k + 1) := by omega
    have harith2 : fuel2 - k = fuel2 + 1 - (k + 1) := by omega
    rw [harith1, harith2, Prod.mk.injEq]
    refine ⟨rfl, ?_⟩
    rw [List.range_succ_eq_map, List.map_cons, List.map_map, List.cons_append]
    have hcons : ∀ (a b : Nat) (l1 l2 t : List Nat),
        a = b → l1 = l2 → a :: (l1 ++ t) = b :: (l2 ++ t) := by
      intro a b l1 l2 t ha hl
      rw [ha, hl]
    refine hcons _ _ _ _ _ (by omega) ?_
    refine List.map_congr_left ?_
    intro j _
    simp only [Function.comp]
    omega

/-- `ParseCommand` as a case split on the tokenizer's output (definitional). -/
theorem parseCommand_eq (input : String) :
    parseCommand input =
      match parseCommandArgs input with
      | [] => ("", [], false)
      | p0 :: rest =>
        if p0 != "!poll" then ("", [], false)
        else
          match rest with
          | [] => ("help", [], true)
          | p1 :: rest2 => (goToLower p1, rest2, true) := rfl

/-! ## Claim theorems -/

/-- C1: the claim says `AddVote` fails with `ValidationError` on a malformed
poll id and with `DuplicateVoteError` when the caller already voted.  The
`AddVote` in `poll_service.go` performs neither check (it has no voter set at
all): a second vote by the same caller succeeds again, and a malformed id is
reported as not-found.  The repository's own tests
(`TestAddVote`: "неверный формат ID опроса", "вы уже голосовали в этом
опросе") assert the claimed behaviour, so the code, not the claim, is at
fault. -/
theorem addVote_missing_checks :
    (Service.addVote storeP1 "u1" "p1" "A").1 = .ok (.voted "p1" "A") ∧
    (Service.addVote (Service.addVote storeP1 "u1" "p1" "A").2 "u1" "p1" "A").1 =
      .ok (.voted "p1" "A") ∧
    (Service.addVote storeP1 "u1" "not-a-uuid" "A").1 = .error .notFound := by
  decide

/-- C2: the claim says option counts always equal the number of voters who
chose the option and their sum equals the size of the voters set.  The
service in `poll_service.go` tracks no voters at all: after the single user
`u1` votes twice for "A" (both calls succeed, see C1), the persisted count is
2, violating the claimed invariant in a reachable state. -/
theorem addVote_no_voter_tracking :
    InMemory.getPoll
        (Service.addVote (Service.addVote storeP1 "u1" "p1" "A").2 "u1" "p1" "A").2 "p1" =
      some { pollP1 with options := [("A", 2)] } := by
  decide

set_option maxRecDepth 8192 in
/-- C3: the claim says `CreatePoll` rejects an over-long question, an
over-long option, and duplicate option labels with a `ValidationError`.  The
`CreatePoll` in `poll_service.go` only checks that `options` is non-empty:
it accepts a 256-byte question, a 101-byte option, and duplicate labels
(which silently collapse into one map key), while the repository's own tests
(`TestCreatePoll`) assert the three rejections the claim describes. -/
theorem createPoll_missing_validation :
    (Service.createPoll [] "p2" 0 "u1" longQuestion ["Option1"]).1 =
      .ok (.created "p2" longQuestion ["Option1"]) ∧
    (Service.createPoll [] "p2" 0 "u1" "q" [longOption]).1 =
      .ok (.created "p2" "q" [longOption]) ∧
    (Service.createPoll [] "p2" 0 "u1" "q" ["A", "A"]).1 =
      .ok (.created "p2" "q" ["A", "A"]) ∧
    InMemory.getPoll (Service.createPoll [] "p2" 0 "u1" "q" ["A", "A"]).2 "p2" =
      some { id := "p2", question := "q", options := [("A", 0)], creator := "u1",
             createdAt := 0, closed := false } := by
  decide

/-- C4: `AddVoteAtomic` retries the conditional update only on a write-write
conflict ("transaction conflict" in the store's error text), sleeping a
linearly increasing `20ms, 40ms, ...` between attempts, for at most 5
attempts; five conflicts yield the terminal "failed to persist vote after 5
attempts" error, while a non-conflict store error at any attempt is returned
immediately with no further attempts. -/
theorem addVoteAtomic_retry_policy (update : Nat → Repository.UpdateResult) :
    ((∀ i, i < 5 → ∃ m, update i = .fail m ∧ Repository.isConflict m = true) →
      Repository.addVoteAtomic none update = (.exhausted, [20, 40, 60, 80, 100])) ∧
    (∀ k m, k < 5 →
      (∀ j, j < k → ∃ m2, update j = .fail m2 ∧ Repository.isConflict m2 = true) →
      update k = .fail m → Repository.isConflict m = false →
      Repository.addVoteAtomic none update =
        (.saveError m, (List.range k).map (fun j => (j + 1) * 20))) ∧
    (∀ k, k < 5 →
      (∀ j, j < k → ∃ m2, update j = .fail m2 ∧ Repository.isConflict m2 = true) →
      update k = .ok →
      Repository.addVoteAtomic none update =
        (.ok, (List.range k).map (fun j => (j + 1) * 20))) := by
  refine ⟨?_, ?_, ?_⟩
  · intro h
    have hshift := addVoteLoop_conflict_prefix update 5 0 5 le_rfl (by simpa using h)
    have hz : Repository.addVoteLoop update (0 + 5) (5 - 5) =
        ((.exhausted : Repository.VoteWrite), ([] : List Nat)) := rfl
    rw [hz] at hshift
    simp only [Repository.addVoteAtomic, hshift]
    decide
  · intro k m hk hpre hk2 hnc
    have hshift := addVoteLoop_conflict_prefix update k 0 5 (by omega) (by simpa using hpre)
    obtain ⟨f, hf⟩ : ∃ f, 5 - k = f + 1 := ⟨4 - k, by omega⟩
    have hupd : update (0 + k) = .fail m := by simpa using hk2
    have hstep : Repository.addVoteLoop update (0 + k) (5 - k) = (.saveError m, []) := by
      rw [hf, addVoteLoop_succ, hupd]
      simp [hnc]
    rw [hstep] at hshift
    simp only [Repository.addVoteAtomic, hshift, List.append_nil]
    refine congrArg (fun l => ((Repository.VoteWrite.saveError m), l)) ?_
    refine List.map_congr_left ?_
    intro j _
    omega
  · intro k hk hpre hok
    have hshift := addVoteLoop_conflict_prefix update k 0 5 (by omega) (by simpa using hpre)
    obtain ⟨f, hf⟩ : ∃ f, 5 - k = f + 1 := ⟨4 - k, by omega⟩
    have hupd : update (0 + k) = .ok := by simpa using hok
    have hstep : Repository.addVoteLoop update (0 + k) (5 - k) = (.ok, []) := by
      rw [hf, addVoteLoop_succ, hupd]
    rw [hstep] at hshift
    simp only [Repository.addVoteAtomic, hshift, List.append_nil]
    refine congrArg (fun l => ((Repository.VoteWrite.ok), l)) ?_
    refine List.map_congr_left ?_
    intro j _
    omega

/-- Witness for C4 at concrete stores: five conflicts exhaust with the linear
sleep trace; two conflicts followed by a plain store error stop immediately;
one conflict followed by success stops with one sleep. -/
theorem addVoteAtomic_retry_policy_witness :
    Repository.addVoteAtomic none (fun _ => .fail "transaction conflict") =
      (.exhausted, [20, 40, 60, 80, 100]) ∧
    Repository.addVoteAtomic none
        (fun i => if i < 2 then .fail "transaction conflict" else .fail "db down") =
      (.saveError "db down", (List.range 2).map (fun j => (j + 1) * 20)) ∧
    Repository.addVoteAtomic none
        (fun i => if i < 1 then .fail "transaction conflict" else .ok) =
      (.ok, (List.range 1).map (fun j => (j + 1) * 20)) := by
  refine ⟨?_, ?_, ?_⟩
  · exact (addVoteAtomic_retry_policy _).1
      (fun i _ => ⟨"transaction conflict", rfl, by decide⟩)
  · exact (addVoteAtomic_retry_policy _).2.1 2 "db down" (by decide)
      (fun j hj => ⟨"transaction conflict", by simp [hj], by decide⟩)
      (by decide) (by decide)
  · exact (addVoteAtomic_retry_policy _).2.2 1 (by decide)
      (fun j hj => ⟨"transaction conflict", by simp [hj], by decide⟩)
      (by decide)

/-- C5: the claim says `ClosePoll` flips only the closed flag of the record
laid out as id, creator, question, voters, options, closed, the same layout
all store operations use.  In the code, `AddVoteAtomic` addresses voters and
options with field numbers 3 and 4 — correct for the saved tuple only under
0-based numbering — while `ClosePoll` addresses the closed flag with field
number 6, which under that same numbering lies one past the closed field
(index 5): applied to a saved open poll it leaves the flag `false` and
appends a stray seventh field.  No numbering base makes both operations hit
their intended fields, so the code, which its own layout comments contradict,
is at fault. -/
theorem closePoll_field_mismatch :
    (∀ p : Models.Poll,
      (Repository.savePollTuple p).get? 3 = some (.vmapB p.voters) ∧
      (Repository.savePollTuple p).get? 4 = some (.vmapN p.options) ∧
      (Repository.savePollTuple p).get? 5 = some (.vbool p.closed)) ∧
    Repository.applyOps 0 (Repository.savePollTuple pollP1M)
        (Repository.addVoteAtomicOps pollP1Mvoted) =
      Repository.savePollTuple pollP1Mvoted ∧
    (Repository.applyOps 0 (Repository.savePollTuple pollP1M)
        Repository.closePollOps).get? 5 = some (.vbool false) ∧
    ¬ ∃ base : Nat,
        (Repository.addVoteAtomicOps pollP1M).map (fun o => o.fieldNo - base) = [3, 4] ∧
        Repository.closePollOps.map (fun o => o.fieldNo - base) = [5] := by
  refine ⟨fun p => ⟨rfl, rfl, rfl⟩, by decide, by decide, ?_⟩
  rintro ⟨base, h1, h2⟩
  simp [Repository.addVoteAtomicOps, Repository.closePollOps] at h1 h2
  omega

/-- C6: the claim says the tokenizer always flushes a non-empty buffer as a
final token at end of input.  The flush is guarded by
`i == len(input)-1`, comparing the byte offset at which the final rune starts
with the byte length of the input, so any input whose last rune is multi-byte
(e.g. Cyrillic "й", or "Вопрос" at the end of a command line), and any input
whose last rune is consumed by the escape branch's `continue`, skips the
flush and the final token is silently dropped — contradicting the flush
check's own evident intent and the spec. -/
theorem parseCommandArgs_drops_final_token :
    parseCommandArgs "й" = [] ∧
    parseCommandArgs "opt" = ["opt"] ∧
    parseCommandArgs "!poll create Вопрос" = ["!poll", "create"] := by
  decide

/-- C7: for every valid question/options pair (non-empty, unique, non-empty
labels within the 255/100-byte limits), `CreatePoll` (current generation,
modelled from the spec) succeeds, produces a poll with every option count 0,
an empty voter set, `closed = false` and `creator` the caller, and the new id
round-trips through the store: `GetPoll` returns exactly the created poll. -/
theorem createPoll_valid_roundtrip (st : ServiceM.Store)
    (newId userID question : String) (options : List String)
    (hne : options ≠ [])
    (hq : question.utf8ByteSize ≤ 255)
    (hop : ∀ o ∈ options, o.utf8ByteSize ≤ 100 ∧ o ≠ "")
    (hnd : options.Nodup) :
    (ServiceM.createPoll st newId userID question options).1 =
      .ok (.created newId question options) ∧
    InMemory.getPoll (ServiceM.createPoll st newId userID question options).2 newId =
      some { id := newId, creator := userID, question := question, voters := [],
             options := options.map (fun o => (o, 0)), closed := false } := by
  have h1 : ¬ options.length < 1 := by
    cases options with
    | nil => exact absurd rfl hne
    | cons a l => simp
  have h2 : ¬ question.utf8ByteSize > 255 := by omega
  have h3 : ¬ ∃ o ∈ options, o.utf8ByteSize > 100 := by
    push_neg
    intro o ho
    exact (hop o ho).1
  have h4 : ¬ ¬ options.Nodup := not_not_intro hnd
  simp only [ServiceM.createPoll, if_neg h1, if_neg h2, if_neg h3, if_neg h4]
  simp [InMemory.getPoll, InMemory.savePoll, assocGet_assocSet_self]

/-- Witness for C7 at a concrete creation. -/
theorem createPoll_valid_roundtrip_witness :
    (ServiceM.createPoll [] "p1" "u1" "Q" ["A", "B"]).1 =
      .ok (.created "p1" "Q" ["A", "B"]) ∧
    InMemory.getPoll (ServiceM.createPoll [] "p1" "u1" "Q" ["A", "B"]).2 "p1" =
      some { id := "p1", creator := "u1", question := "Q", voters := [],
             options := [("A", 0), ("B", 0)], closed := false } := by
  exact createPoll_valid_roundtrip [] "p1" "u1" "Q" ["A", "B"]
    (by decide) (by decide) (by decide) (by decide)

/-- C8: `ParseCommand` recognizes an input exactly when the first token the
(quote-aware, whitespace-delimiting) tokenizer produces is the literal
"!poll"; when that prefix is the only token it yields the "help" command with
no arguments, and otherwise the second token, lowercased, is the command and
the remaining tokens are the arguments. -/
theorem parseCommand_characterization (input : String) :
    ((parseCommand input).2.2 = true ↔ (parseCommandArgs input).head? = some "!poll") ∧
    (parseCommandArgs input = ["!poll"] → parseCommand input = ("help", [], true)) ∧
    (∀ p1 rest, parseCommandArgs input = "!poll" :: p1 :: rest →
      parseCommand input = (goToLower p1, rest, true)) := by
  rw [parseCommand_eq]
  generalize parseCommandArgs input = parts
  cases parts with
  | nil =>
    refine ⟨by simp, ?_, ?_⟩
    · intro h
      exact absurd h (by simp)
    · intro p1 r h
      exact absurd h (by simp)
  | cons p0 rest =>
    by_cases h0 : p0 = "!poll"
    · subst h0
      cases rest with
      | nil =>
        refine ⟨by simp, fun _ => by simp, ?_⟩
        intro p1 r h
        simp at h
      | cons p1 rest2 =>
        refine ⟨by simp, ?_, ?_⟩
        · intro h
          simp at h
        · intro q1 r h
          obtain ⟨h1, h2⟩ : p1 = q1 ∧ rest2 = r := by simpa using h
          subst h1
          subst h2
          simp
    · have hb : (p0 != "!poll") = true := by simp [h0]
      refine ⟨?_, ?_, ?_⟩
      · simp [hb, h0]
      · intro h
        simp at h
        exact absurd h.1 h0
      · intro p1 r h
        simp at h
        exact absurd h.1 h0

/-- Witness for C8 at concrete inputs: the bare prefix falls back to help, a
subcommand with an argument is recognized and split. -/
theorem parseCommand_characterization_witness :
    parseCommand "!poll" = ("help", [], true) ∧
    parseCommand "!poll vote xy" = (goToLower "vote", ["xy"], true) :=
  ⟨(parseCommand_characterization "!poll").2.1 (by decide),
   (parseCommand_characterization "!poll vote xy").2.2 "vote" ["xy"] (by decide)⟩

/-- C9: `HandleCommand` with "create" and fewer than two arguments returns
the fixed insufficient-arguments message with a `nil` error for every
underlying service (hence without any service call), and any command outside
the five subcommands and "help" returns the fixed unknown-command message
with a `nil` error. -/
theorem handleCommand_fixed_responses :
    (∀ (svc : PollServiceSig) (userID : String) (args : List String),
      args.length < 2 →
      handleCommand svc "create" args userID = (.insufficientCreateArgs, none)) ∧
    (∀ (svc : PollServiceSig) (userID cmd : String) (args : List String),
      cmd ∉ (["help", "create", "vote", "results", "end", "delete"] : List String) →
      handleCommand svc cmd args userID = (.unknownCommand, none)) := by
  constructor
  · intro svc userID args h
    match args with
    | [] => rfl
    | [q] => rfl
    | q :: o :: rest => simp at h; omega
  · intro svc userID cmd args h
    simp only [List.mem_cons, List.mem_singleton, not_or] at h
    obtain ⟨h1, h2, h3, h4, h5, h6, -⟩ := h
    simp only [handleCommand, beq_iff_eq, h1, h2, h3, h4, h5, h6, if_false]

/-- Witness for C9 at a concrete service stub and concrete inputs. -/
theorem handleCommand_fixed_responses_witness :
    handleCommand constSvc "create" ["q"] "u1" = (.insufficientCreateArgs, none) ∧
    handleCommand constSvc "foo" [] "u1" = (.unknownCommand, none) :=
  ⟨handleCommand_fixed_responses.1 constSvc "u1" ["q"] (by decide),
   handleCommand_fixed_responses.2 constSvc "u1" "foo" [] (by decide)⟩

/-- C10: with the in-memory backend, every service operation that returns an
error leaves the poll map exactly as it was: all error returns happen before
any store write on every path of the five operations. -/
theorem runOp_error_frame (st : Service.Store) (userID : String) (op : Service.Op)
    (e : PollError) (h : (Service.runOp st userID op).1 = .error e) :
    (Service.runOp st userID op).2 = st := by
  cases op with
  | create newId now q opts =>
    by_cases hlen : opts.length < 1
    · simp [Service.runOp, Service.createPoll, hlen]
    · simp [Service.runOp, Service.createPoll, hlen] at h
  | vote pid c =>
    rcases hg : InMemory.getPoll st pid with _ | poll
    · simp [Service.runOp, Service.addVote, hg]
    · by_cases hc : poll.closed = true
      · simp [Service.runOp, Service.addVote, hg, hc]
      · rcases ho : assocGet poll.options c with _ | n
        · simp [Service.runOp, Service.addVote, hg, hc, ho]
        · simp [Service.runOp, Service.addVote, hg, hc, ho] at h
  | results pid =>
    rcases hg : InMemory.getPoll st pid with _ | poll
    · simp [Service.runOp, Service.getResults, hg]
    · simp [Service.runOp, Service.getResults, hg] at h
  | close pid =>
    rcases hg : InMemory.getPoll st pid with _ | poll
    · simp [Service.runOp, Service.endPoll, hg]
    · by_cases hcr : poll.creator = userID
      · simp [Service.runOp, Service.endPoll, hg, hcr] at h
      · simp [Service.runOp, Service.endPoll, hg, hcr]
  | remove pid =>
    rcases hg : InMemory.getPoll st pid with _ | poll
    · simp [Service.runOp, Service.deletePoll, hg]
    · by_cases hcr : poll.creator = userID
      · simp [Service.runOp, Service.deletePoll, hg, hcr] at h
      · simp [Service.runOp, Service.deletePoll, hg, hcr]

/-- Witness for C10 at a concrete erroring call: a vote on a missing poll. -/
theorem runOp_error_frame_witness :
    (Service.runOp [] "u1" (.vote "p1" "A")).2 = ([] : Service.Store) :=
  runOp_error_frame [] "u1" (.vote "p1" "A") .notFound (by decide)

end PollingBot
